import Mathlib

/-!
# Verification of the cbThreadPool core (src/sdk/cbthreadpool.cpp)

Shallow embedding of the Code::Blocks thread-pool controller.  Task
pointers are modelled as natural-number identifiers (`none` models a NULL
pointer).  Heap effects the pool performs on tasks (`delete task`,
`task->Abort()`, `task->Execute()`) are recorded in audit lists
(`destroyed`, `abortedTasks`, `executed`) so claims about leaks, abort
delivery and execution can be stated.  Events posted with `wxPostEvent`
are recorded, in order, in `posted`.

Critical sections in the C++ are modelled by treating the code between an
`Enter`/`Leave` pair as one atomic action; the interleaving machinery
further below builds multi-worker runs out of those atomic actions.
-/

namespace CbThreadPool

/-- Model of `cbTaskElement`: a task pointer paired with its autoDelete flag.
`task = none` models a NULL task pointer (the empty-queue result of
`GetNextElement`). -/
structure cbTaskElement where
  task : Option Nat
  autoDelete : Bool
deriving DecidableEq, Repr

/-- The two event kinds the pool posts to its owner, each tagged with the
pool id: `cbEVT_THREADTASK_ENDED` and `cbEVT_THREADTASK_ALLDONE`. -/
inductive PoolEvent where
  | taskEnded (id : Int)
  | allDone (id : Int)
deriving DecidableEq, Repr

/-- Model of `PrivateThread`: per-worker fields `m_pTask` and `m_Abort`, plus the
wxThread running state (a thread is created parked and starts running
only after `Run()`). -/
structure PrivateThread where
  m_pTask : Option Nat
  m_Abort : Bool
  running : Bool
deriving DecidableEq, Repr

/-- A freshly allocated worker: `PrivateThread(pool)` then `Create()`. -/
def freshThread : PrivateThread :=
  { m_pTask := none, m_Abort := false, running := false }

/-- Model of the `cbThreadPool` state: the fields of the C++ class plus the audit
lists described in the file header. -/
structure cbThreadPool where
  m_ID : Int
  m_TaskQueue : List cbTaskElement
  m_Done : Bool
  m_Batching : Bool
  m_Counter : Int
  m_Aborting : Bool
  m_ConcurrentThreads : Int
  m_Threads : List PrivateThread
  posted : List PoolEvent
  destroyed : List Nat
  executed : List Nat
  abortedTasks : List Nat
deriving DecidableEq, Repr

/-- Model of `cbThreadPool::ClearTaskQueue`: delete the task of every autoDelete
entry still queued, then clear the queue. -/
def ClearTaskQueue (s : cbThreadPool) : cbThreadPool :=
  { s with
    destroyed :=
      s.destroyed ++ (s.m_TaskQueue.filter (·.autoDelete)).filterMap (·.task)
    m_TaskQueue := [] }

/-- Model of `cbThreadPool::FreeThreads`: every worker receives `Abort()` (which,
under the counter lock, forwards the abort to its in-flight task and sets
`m_Abort`); after the retry/kill loop, `m_Threads.Clear()` leaves the
worker list empty.  The timing of the retry loop is modelled separately
by `freeRetryLoop`. -/
def FreeThreads (s : cbThreadPool) : cbThreadPool :=
  { s with
    abortedTasks := s.abortedTasks ++ s.m_Threads.filterMap (·.m_pTask)
    m_Threads := [] }

/-- Model of `cbThreadPool::AllocThreads`: `FreeThreads()`, then create
`m_ConcurrentThreads` fresh workers (a C++ `for (int i = 0; i < n; ++i)`
loop runs `max 0 n` times, i.e. `Int.toNat n` times). -/
def AllocThreads (s : cbThreadPool) : cbThreadPool :=
  let s1 := FreeThreads s
  { s1 with m_Threads := List.replicate s1.m_ConcurrentThreads.toNat freshThread }

/-- Model of `cbThreadPool::SetConcurrentThreads`: `-1` means auto and resolves to
`wxThread::GetCPUCount()` (passed here as the `cpuCount` argument); if
the result is still `-1` it is reset to `1`; then `AllocThreads()`. -/
def SetConcurrentThreads (cpuCount : Int) (concurrentThreads : Int)
    (s : cbThreadPool) : cbThreadPool :=
  let m1 : Int := if concurrentThreads = -1 then cpuCount else concurrentThreads
  let m2 : Int := if m1 = -1 then 1 else m1
  AllocThreads { s with m_ConcurrentThreads := m2 }

/-- The `cbThreadPool` constructor: member initializers
(`m_Done(true)`, `m_Batching(false)`, `m_Counter(0)`, `m_Aborting(false)`),
`m_Threads.Clear()`, then `SetConcurrentThreads(concurrentThreads)`. -/
def mkPool (cpuCount : Int) (id : Int) (concurrentThreads : Int) : cbThreadPool :=
  SetConcurrentThreads cpuCount concurrentThreads
    { m_ID := id
      m_TaskQueue := []
      m_Done := true
      m_Batching := false
      m_Counter := 0
      m_Aborting := false
      m_ConcurrentThreads := 0
      m_Threads := []
      posted := []
      destroyed := []
      executed := []
      abortedTasks := [] }

/-- Model of `cbThreadPool::RunThreads`: under the queue lock, `Run()` every
worker that is non-null, not running, not the calling thread, provided
the pool is not aborting.  (Workers are never the calling thread in this
model.) -/
def RunThreads (s : cbThreadPool) : cbThreadPool :=
  { s with
    m_Threads := s.m_Threads.map fun th =>
      if ¬s.m_Aborting ∧ ¬th.running then { th with running := true } else th }

/-- Model of `cbThreadPool::AddTask`: if aborting, delete the task when autoDelete
and return false; otherwise append a new element to the queue, set
`m_Done = false`, and unless batching call `RunThreads`. -/
def AddTask (s : cbThreadPool) (task : Nat) (autoDelete : Bool) :
    Bool × cbThreadPool :=
  if s.m_Aborting then
    (false, if autoDelete then { s with destroyed := s.destroyed ++ [task] } else s)
  else
    let s1 := { s with
      m_TaskQueue := s.m_TaskQueue ++ [⟨some task, autoDelete⟩]
      m_Done := false }
    (true, if ¬s1.m_Batching then RunThreads s1 else s1)

/-- Model of `cbThreadPool::GetNextElement`: under the queue lock, default the
result's task to NULL; if the queue has a first node, copy its element
out and delete the node. -/
def GetNextElement (s : cbThreadPool) : cbTaskElement × cbThreadPool :=
  match s.m_TaskQueue with
  | [] => (⟨none, false⟩, s)
  | e :: rest => (e, { s with m_TaskQueue := rest })

/-- Model of `cbThreadPool::OnThreadTaskDone`: post `cbEVT_THREADTASK_ENDED`;
then, if the queue is empty and (under the counter lock) `m_Counter == 0`,
set `m_Done = true` and post `cbEVT_THREADTASK_ALLDONE`. -/
def OnThreadTaskDone (s : cbThreadPool) : cbThreadPool :=
  let s1 := { s with posted := s.posted ++ [PoolEvent.taskEnded s.m_ID] }
  if s1.m_TaskQueue.isEmpty then
    if s1.m_Counter = 0 then
      { s1 with
        m_Done := true
        posted := s1.posted ++ [PoolEvent.allDone s1.m_ID] }
    else s1
  else s1

/-- Model of `cbThreadPool::BatchBegin`: set the batching flag. -/
def BatchBegin (s : cbThreadPool) : cbThreadPool :=
  { s with m_Batching := true }

/-- Model of `cbThreadPool::BatchEnd`: clear the batching flag and `RunThreads`. -/
def BatchEnd (s : cbThreadPool) : cbThreadPool :=
  RunThreads { s with m_Batching := false }

/-- Model of `cbThreadPool::AbortAllTasks`: set `m_Aborting`, `ClearTaskQueue`,
`FreeThreads`, `AllocThreads`, clear `m_Aborting`.  Note that `m_Done`
and `m_Counter` are not touched. -/
def AbortAllTasks (s : cbThreadPool) : cbThreadPool :=
  let s1 := { s with m_Aborting := true }
  let s2 := ClearTaskQueue s1
  let s3 := FreeThreads s2
  let s4 := AllocThreads s3
  { s4 with m_Aborting := false }

/-- Count of `cbEVT_THREADTASK_ALLDONE` events in a posted-event list. -/
def countAllDone (evs : List PoolEvent) : Nat :=
  (evs.filter fun e => match e with | .allDone _ => true | _ => false).length

/-- Count of `cbEVT_THREADTASK_ENDED` events in a posted-event list. -/
def countTaskEnded (evs : List PoolEvent) : Nat :=
  (evs.filter fun e => match e with | .taskEnded _ => true | _ => false).length

/-- The done-flag invariant of the spec: `m_Done` is true iff the queue
is empty and the busy counter is zero. -/
def DoneInv (s : cbThreadPool) : Prop :=
  s.m_Done = true ↔ (s.m_TaskQueue = [] ∧ s.m_Counter = 0)

instance (s : cbThreadPool) : Decidable (DoneInv s) := by
  unfold DoneInv; infer_instance

/-! ## Worker runs

`workerIterate`/`workerRunAux` model a lone, never-aborted worker driving
`PrivateThread::Entry` to completion: dequeue, increment the counter,
`Execute()`, decrement, delete when autoDelete, `OnThreadTaskDone`; the
loop exits when the dequeued element's task is NULL.  (The per-thread
`m_pTask` bookkeeping, irrelevant when no abort can observe it, is
carried in full by the interleaving machine further below.) -/

/-- One iteration of `PrivateThread::Entry` for a lone worker; `false`
means the `if (!elem.task) break;` exit was taken. -/
def workerIterate (s : cbThreadPool) : Bool × cbThreadPool :=
  let p := GetNextElement s
  match p.1.task with
  | none => (false, p.2)
  | some t =>
    let s2 := { p.2 with m_Counter := p.2.m_Counter + 1 }
    let s3 := { s2 with executed := s2.executed ++ [t] }
    let s4 := { s3 with m_Counter := s3.m_Counter - 1 }
    let s5 := if p.1.autoDelete then
        { s4 with destroyed := s4.destroyed ++ [t] }
      else s4
    (true, OnThreadTaskDone s5)

/-- Fueled worker loop; fuel bounds the number of iterations. -/
def workerRunAux : Nat → cbThreadPool → cbThreadPool
  | 0, s => s
  | fuel + 1, s =>
    match workerIterate s with
    | (false, s1) => s1
    | (true, s1) => workerRunAux fuel s1

/-- A lone worker runs `Entry` until the queue is exhausted (one spare
unit of fuel lets it take the NULL-task exit). -/
def workerRun (s : cbThreadPool) : cbThreadPool :=
  workerRunAux (s.m_TaskQueue.length + 1) s

/-- Submit a list of (task, autoDelete) pairs with `AddTask`, in order. -/
def submitAll (s : cbThreadPool) (ts : List (Nat × Bool)) : cbThreadPool :=
  ts.foldl (fun acc t => (AddTask acc t.1 t.2).2) s

/-- Repeated `GetNextElement`: the list of task ids dequeued before the
first NULL-task result. -/
def drainAux : Nat → cbThreadPool → List Nat
  | 0, _ => []
  | fuel + 1, s =>
    let p := GetNextElement s
    match p.1.task with
    | none => []
    | some t => t :: drainAux fuel p.2

/-- The `if (!elem.task) break;` test of `PrivateThread::Entry`: the
worker loop exits exactly when the dequeued element's task is NULL. -/
def entryBreaks (elem : cbTaskElement) : Bool :=
  elem.task.isNone

/-! ## Interleaved multi-worker runs

Each constructor of `WAct` is one atomic action of
`PrivateThread::Entry`: either the body of one
`Enter`/`Leave` critical section, or a single lock-free statement.
`stepLocal` gives each action its semantics, acting on the shared pool
state and the worker's locals (`elem`, `m_pTask`, `m_Abort`).  A
schedule is any interleaving of the per-worker action scripts. -/

/-- Atomic actions of `PrivateThread::Entry`, in source order:
`clearTask` = `{ m_pTask = 0 }` under the counter lock at the loop top;
`getNext` = `GetNextElement(elem)`;
`takeTask` = `{ ++m_Counter; m_pTask = elem.task }` under the counter lock;
`execute` = `if (!Aborted()) m_pTask->Execute()`;
`putTask` = `{ m_pTask = 0; --m_Counter }` under the counter lock;
`deleteIfAuto` = `if (elem.autoDelete) delete elem.task`;
`notify` = `OnThreadTaskDone(this)`. -/
inductive WAct where
  | clearTask
  | getNext
  | takeTask
  | execute
  | putTask
  | deleteIfAuto
  | notify
deriving DecidableEq, Repr

/-- Worker-local variables of `PrivateThread::Entry`. -/
structure WorkerLocal where
  elem : cbTaskElement
  m_pTask : Option Nat
  m_Abort : Bool
deriving DecidableEq, Repr

/-- Locals of a freshly started worker. -/
def initLocal : WorkerLocal :=
  { elem := ⟨none, false⟩, m_pTask := none, m_Abort := false }

/-- Shared pool state plus the locals of two workers A and B. -/
structure MachineState where
  pool : cbThreadPool
  wA : WorkerLocal
  wB : WorkerLocal
deriving DecidableEq, Repr

/-- Semantics of one atomic worker action on the pool and that worker's
locals, following `PrivateThread::Entry`. -/
def stepLocal (a : WAct) (pool : cbThreadPool) (w : WorkerLocal) :
    cbThreadPool × WorkerLocal :=
  match a with
  | .clearTask => (pool, { w with m_pTask := none })
  | .getNext =>
    let p := GetNextElement pool
    (p.2, { w with elem := p.1 })
  | .takeTask =>
    ({ pool with m_Counter := pool.m_Counter + 1 },
     { w with m_pTask := w.elem.task })
  | .execute =>
    match w.m_pTask with
    | some t =>
      if ¬w.m_Abort then ({ pool with executed := pool.executed ++ [t] }, w)
      else (pool, w)
    | none => (pool, w)
  | .putTask =>
    ({ pool with m_Counter := pool.m_Counter - 1 }, { w with m_pTask := none })
  | .deleteIfAuto =>
    if w.elem.autoDelete then
      match w.elem.task with
      | some t => ({ pool with destroyed := pool.destroyed ++ [t] }, w)
      | none => (pool, w)
    else (pool, w)
  | .notify => (OnThreadTaskDone pool, w)

/-- One scheduled step: `false` runs the action on worker A, `true` on
worker B. -/
def step (m : MachineState) : Bool × WAct → MachineState
  | (false, a) =>
    let p := stepLocal a m.pool m.wA
    { m with pool := p.1, wA := p.2 }
  | (true, a) =>
    let p := stepLocal a m.pool m.wB
    { m with pool := p.1, wB := p.2 }

/-- Run a schedule of worker-tagged atomic actions. -/
def runSchedule (m : MachineState) (sched : List (Bool × WAct)) : MachineState :=
  sched.foldl step m

/-- The atomic actions of one task-executing iteration of
`PrivateThread::Entry`, in source order. -/
def iterScript : List WAct :=
  [.clearTask, .getNext, .takeTask, .execute, .putTask, .deleteIfAuto, .notify]

/-- Predicate `isInterleaving a b c` holds when `c` is an order-preserving merge of
`a` and `b`. -/
def isInterleaving {α : Type} [DecidableEq α] (as bs : List α) :
    List α → Bool
  | [] => as.isEmpty && bs.isEmpty
  | c :: cs =>
    (match as with
     | a :: as2 => if a = c then isInterleaving as2 bs cs else false
     | [] => false)
    ||
    (match bs with
     | b :: bs2 => if b = c then isInterleaving as bs2 cs else false
     | [] => false)

/-! ## Teardown retry loop -/

/-- The per-thread wait loop of `cbThreadPool::FreeThreads`:
`while (thread->IsRunning()) { thread->Abort(); wxMilliSleep(1);
if (++count > 10) { if (thread->IsRunning()) thread->Kill(); break; } }`.
`isRunning k` tells whether the thread is still running after `k` abort
signals have been issued inside the loop; `aborts` counts the
abort-and-sleep retries issued so far and `rem = 10 - count` is the
number of loop iterations left before the `++count > 10` test fires.
Returns the number of abort-and-sleep retries issued and whether
`Kill()` was invoked. -/
def freeRetryLoopAux (isRunning : Nat → Bool) (aborts : Nat) :
    Nat → Nat × Bool
  | 0 =>
    if isRunning aborts then (aborts + 1, isRunning (aborts + 1))
    else (aborts, false)
  | rem + 1 =>
    if isRunning aborts then freeRetryLoopAux isRunning (aborts + 1) rem
    else (aborts, false)

/-- The full wait loop as the source runs it, with `count` starting at 0
(so 10 iterations remain before the kill check). -/
def freeRetryLoop (isRunning : Nat → Bool) : Nat × Bool :=
  freeRetryLoopAux isRunning 0 10

/-- The abort-signalling first phase of `cbThreadPool::FreeThreads`: set
`m_Abort` on every thread (and forward the abort to its in-flight task;
the task side is recorded by `FreeThreads` itself). -/
def freeThreadsSignalPhase (threads : List PrivateThread) : List PrivateThread :=
  threads.map fun th => { th with m_Abort := true }

/-! ## Claim theorems -/

/-- C3: submitting while the aborting flag is set returns false without
enqueuing; with autoDelete the task is recorded destroyed by the pool
(appended to the destroyed audit list, hence not leaked), and without
autoDelete the pool state is untouched. -/
theorem C3_addTask_while_aborting (s : cbThreadPool) (t : Nat) (ad : Bool)
    (h : s.m_Aborting = true) :
    (AddTask s t ad).1 = false ∧
    (AddTask s t ad).2.m_TaskQueue = s.m_TaskQueue ∧
    (ad = true → (AddTask s t ad).2.destroyed = s.destroyed ++ [t]) ∧
    (ad = false → (AddTask s t ad).2 = s) := by
  cases ad <;> simp [AddTask, h]

/-- Witness for C3 at a concrete aborting pool. -/
theorem C3_addTask_while_aborting_witness :
    ({ mkPool 4 0 1 with m_Aborting := true } : cbThreadPool).m_Aborting = true ∧
    (AddTask { mkPool 4 0 1 with m_Aborting := true } 9 true).1 = false :=
  ⟨by decide,
   (C3_addTask_while_aborting { mkPool 4 0 1 with m_Aborting := true } 9 true
      (by decide)).1⟩

/-- C6: on a non-aborting pool, AddTask appends the entry at the queue
tail, clears the done flag and returns true; without batching every
worker is left running (idle workers are woken), with batching the
worker set is untouched; BatchBegin sets the batching flag and BatchEnd
clears it and performs the wake of all workers. -/
theorem C6_addTask_batching (s : cbThreadPool) (t : Nat) (ad : Bool)
    (h : s.m_Aborting = false) :
    (AddTask s t ad).1 = true ∧
    (AddTask s t ad).2.m_TaskQueue = s.m_TaskQueue ++ [⟨some t, ad⟩] ∧
    (AddTask s t ad).2.m_Done = false ∧
    (s.m_Batching = false →
      ∀ th ∈ (AddTask s t ad).2.m_Threads, th.running = true) ∧
    (s.m_Batching = true → (AddTask s t ad).2.m_Threads = s.m_Threads) ∧
    (BatchBegin s).m_Batching = true ∧
    (BatchEnd s).m_Batching = false ∧
    (∀ th ∈ (BatchEnd s).m_Threads, th.running = true) := by
  refine ⟨?_, ?_, ?_, ?_, ?_, rfl, rfl, ?_⟩
  · simp [AddTask, h]
  · cases hb : s.m_Batching <;> simp [AddTask, h, hb, RunThreads]
  · cases hb : s.m_Batching <;> simp [AddTask, h, hb, RunThreads]
  · intro hb th hth
    simp [AddTask, h, hb, RunThreads] at hth
    obtain ⟨u, _, rfl⟩ := hth
    by_cases hu : u.running = true <;> simp [hu]
  · intro hb
    simp [AddTask, h, hb]
  · intro th hth
    simp [BatchEnd, RunThreads, h] at hth
    obtain ⟨u, _, rfl⟩ := hth
    by_cases hu : u.running = true <;> simp [hu]

/-- Witness for C6 at a concrete non-aborting pool. -/
theorem C6_addTask_batching_witness :
    (mkPool 4 0 2).m_Aborting = false ∧
    (AddTask (mkPool 4 0 2) 9 false).1 = true :=
  ⟨by decide, (C6_addTask_batching (mkPool 4 0 2) 9 false (by decide)).1⟩

/-- C5: AbortAllTasks destroys every queued autoDelete task (it lands in
the destroyed audit list) and executes nothing (the executed audit list
is unchanged, so no pending task's `Execute()` runs); every in-flight
task receives `Abort()`; afterwards the pool holds exactly
`m_ConcurrentThreads` freshly created idle workers and the aborting flag
is cleared. -/
theorem C5_abortAllTasks (s : cbThreadPool)
    (h : 0 ≤ s.m_ConcurrentThreads) :
    (∀ e ∈ s.m_TaskQueue, e.autoDelete = true →
      ∀ t, e.task = some t → t ∈ (AbortAllTasks s).destroyed) ∧
    (AbortAllTasks s).executed = s.executed ∧
    (∀ th ∈ s.m_Threads, ∀ t, th.m_pTask = some t →
      t ∈ (AbortAllTasks s).abortedTasks) ∧
    ((AbortAllTasks s).m_Threads.length : Int) = s.m_ConcurrentThreads ∧
    (∀ th ∈ (AbortAllTasks s).m_Threads, th = freshThread) ∧
    (AbortAllTasks s).m_Aborting = false := by
  refine ⟨?_, rfl, ?_, ?_, ?_, rfl⟩
  · intro e he hauto t ht
    simp [AbortAllTasks, ClearTaskQueue, FreeThreads, AllocThreads]
    right
    exact ⟨e, ⟨he, hauto⟩, ht⟩
  · intro th hth t ht
    simp [AbortAllTasks, ClearTaskQueue, FreeThreads, AllocThreads]
    right
    exact ⟨th, hth, ht⟩
  · simp [AbortAllTasks, ClearTaskQueue, FreeThreads, AllocThreads]
    exact h
  · intro th hth
    simp [AbortAllTasks, ClearTaskQueue, FreeThreads, AllocThreads] at hth
    exact hth.2

/-- Witness for C5 at a concrete pool with one queued autoDelete task. -/
theorem C5_abortAllTasks_witness :
    (0 : Int) ≤ ((AddTask (mkPool 4 0 2) 9 true).2).m_ConcurrentThreads ∧
    (AbortAllTasks (AddTask (mkPool 4 0 2) 9 true).2).executed =
      ((AddTask (mkPool 4 0 2) 9 true).2).executed :=
  ⟨by decide, (C5_abortAllTasks (AddTask (mkPool 4 0 2) 9 true).2 (by decide)).2.1⟩

/-- C7: passing `-1` resolves the worker count to the CPU count with a
fallback to 1 when that is itself `-1`; any call stops the previous
workers (forwarding `Abort()` to their in-flight tasks) and reallocates,
leaving exactly the resolved number of fresh workers. -/
theorem C7_setConcurrentThreads (cpu n : Int) (s : cbThreadPool)
    (h : 0 ≤ (SetConcurrentThreads cpu n s).m_ConcurrentThreads) :
    (n = -1 → (SetConcurrentThreads cpu n s).m_ConcurrentThreads =
      (if cpu = -1 then 1 else cpu)) ∧
    (∀ th ∈ s.m_Threads, ∀ t, th.m_pTask = some t →
      t ∈ (SetConcurrentThreads cpu n s).abortedTasks) ∧
    ((SetConcurrentThreads cpu n s).m_Threads.length : Int) =
      (SetConcurrentThreads cpu n s).m_ConcurrentThreads ∧
    (∀ th ∈ (SetConcurrentThreads cpu n s).m_Threads, th = freshThread) := by
  refine ⟨?_, ?_, ?_, ?_⟩
  · intro hn
    simp [SetConcurrentThreads, AllocThreads, FreeThreads, hn]
  · intro th hth t ht
    simp [SetConcurrentThreads, AllocThreads, FreeThreads]
    right
    exact ⟨th, hth, ht⟩
  · simp only [SetConcurrentThreads, AllocThreads, FreeThreads] at h ⊢
    simp at h ⊢
    exact h
  · intro th hth
    simp [SetConcurrentThreads, AllocThreads, FreeThreads] at hth
    exact hth.2

/-- Witness for C7 at auto concurrency with 4 CPUs. -/
theorem C7_setConcurrentThreads_witness :
    (0 : Int) ≤ (SetConcurrentThreads 4 (-1) (mkPool 4 0 1)).m_ConcurrentThreads ∧
    (SetConcurrentThreads 4 (-1) (mkPool 4 0 1)).m_ConcurrentThreads =
      (if (4 : Int) = -1 then 1 else 4) :=
  ⟨by decide, (C7_setConcurrentThreads 4 (-1) (mkPool 4 0 1) (by decide)).1 rfl⟩

/-- C10: any value other than `-1` is stored verbatim as
`m_ConcurrentThreads`; values below 1 therefore allocate no workers at
all, and a task submitted to such a pool is appended to the queue while
the executed audit list stays unchanged and the worker set stays empty,
so nothing can ever run it. -/
theorem C10_verbatim_concurrency (cpu n : Int) (s : cbThreadPool) (t : Nat)
    (ad : Bool) (hn : n ≠ -1) :
    (SetConcurrentThreads cpu n s).m_ConcurrentThreads = n ∧
    (n ≤ 0 → (SetConcurrentThreads cpu n s).m_Threads = []) ∧
    (SetConcurrentThreads cpu n s).m_Aborting = s.m_Aborting ∧
    (s.m_Aborting = false →
      (AddTask (SetConcurrentThreads cpu n s) t ad).2.m_TaskQueue =
        (SetConcurrentThreads cpu n s).m_TaskQueue ++ [⟨some t, ad⟩] ∧
      (AddTask (SetConcurrentThreads cpu n s) t ad).2.executed =
        (SetConcurrentThreads cpu n s).executed ∧
      (n ≤ 0 → (AddTask (SetConcurrentThreads cpu n s) t ad).2.m_Threads = [])) := by
  have hstore : (SetConcurrentThreads cpu n s).m_ConcurrentThreads = n := by
    simp [SetConcurrentThreads, AllocThreads, FreeThreads, hn]
  have habort : (SetConcurrentThreads cpu n s).m_Aborting = s.m_Aborting := by
    simp [SetConcurrentThreads, AllocThreads, FreeThreads]
  have hthreads : n ≤ 0 → (SetConcurrentThreads cpu n s).m_Threads = [] := by
    intro hle
    have : (SetConcurrentThreads cpu n s).m_Threads =
        List.replicate (SetConcurrentThreads cpu n s).m_ConcurrentThreads.toNat
          freshThread := by
      simp [SetConcurrentThreads, AllocThreads, FreeThreads]
    rw [this, hstore]
    have : n.toNat = 0 := Int.toNat_of_nonpos hle
    simp [this]
  refine ⟨hstore, hthreads, habort, ?_⟩
  intro hab
  have hab2 : (SetConcurrentThreads cpu n s).m_Aborting = false := habort.trans hab
  refine ⟨by
      cases hb : (SetConcurrentThreads cpu n s).m_Batching <;>
        simp [AddTask, hab2, hb, RunThreads], by
      cases hb : (SetConcurrentThreads cpu n s).m_Batching <;>
        simp [AddTask, hab2, hb, RunThreads], ?_⟩
  intro hle
  cases hb : (SetConcurrentThreads cpu n s).m_Batching <;>
    simp [AddTask, hab2, hb, RunThreads, hthreads hle]

/-- Witness for C10 at concurrency 0. -/
theorem C10_verbatim_concurrency_witness :
    (0 : Int) ≠ -1 ∧
    (SetConcurrentThreads 4 0 (mkPool 4 0 1)).m_ConcurrentThreads = 0 :=
  ⟨by decide, (C10_verbatim_concurrency 4 0 (mkPool 4 0 1) 9 false (by decide)).1⟩

/-- C1 (amended): construction establishes the done-flag equivalence,
and AddTask and OnThreadTaskDone preserve it; AbortAllTasks (see the
counterexample) does not. -/
theorem C1_doneInv_preserved (cpu id n : Int) (s : cbThreadPool) (t : Nat)
    (ad : Bool) (h : DoneInv s) :
    DoneInv (mkPool cpu id n) ∧
    DoneInv (AddTask s t ad).2 ∧
    DoneInv (OnThreadTaskDone s) := by
  refine ⟨?_, ?_, ?_⟩
  · simp [DoneInv, mkPool, SetConcurrentThreads, AllocThreads, FreeThreads]
  · by_cases hab : s.m_Aborting = true
    · cases ad <;> simpa [DoneInv, AddTask, hab] using h
    · have hab2 : s.m_Aborting = false := by
        cases hx : s.m_Aborting
        · rfl
        · exact absurd hx hab
      cases hb : s.m_Batching <;>
        simp [DoneInv, AddTask, hab2, hb, RunThreads]
  · unfold DoneInv at h ⊢
    by_cases hq : s.m_TaskQueue = []
    · by_cases hc : s.m_Counter = 0
      · simp [OnThreadTaskDone, hq, hc]
      · simp [OnThreadTaskDone, hq, hc] at h ⊢
        exact h
    · simp [OnThreadTaskDone, hq] at h ⊢
      exact h

/-- Witness for C1 (amended) at a freshly constructed pool. -/
theorem C1_doneInv_preserved_witness :
    DoneInv (mkPool 4 0 1) ∧ DoneInv (OnThreadTaskDone (mkPool 4 0 1)) :=
  ⟨by decide,
   (C1_doneInv_preserved 4 0 1 (mkPool 4 0 1) 9 false (by decide)).2.2⟩

/-- C1 fails as stated: submit one task to a fresh pool, then call
AbortAllTasks; the queue is empty and the busy counter is zero, but the
done flag is still false, so AbortAllTasks does not preserve the
equivalence. -/
theorem C1_doneInv_counterexample :
    ¬ DoneInv (AbortAllTasks (AddTask (mkPool 4 0 2) 1 false).2) ∧
    (AbortAllTasks (AddTask (mkPool 4 0 2) 1 false).2).m_Done = false ∧
    (AbortAllTasks (AddTask (mkPool 4 0 2) 1 false).2).m_TaskQueue = [] ∧
    (AbortAllTasks (AddTask (mkPool 4 0 2) 1 false).2).m_Counter = 0 := by
  decide

/-- Characterisation of the FreeThreads wait loop: at most `rem + 1`
further retries are issued, and `Kill()` fires exactly when all
`rem + 1` remaining retries are used up and the thread still runs. -/
theorem freeRetryLoopAux_spec (f : Nat → Bool) :
    ∀ rem aborts,
      (freeRetryLoopAux f aborts rem).1 ≤ aborts + rem + 1 ∧
      ((freeRetryLoopAux f aborts rem).2 = true →
        (freeRetryLoopAux f aborts rem).1 = aborts + rem + 1 ∧
        f (aborts + rem + 1) = true) := by
  intro rem
  induction rem with
  | zero =>
    intro aborts
    by_cases hr : f aborts = true <;> simp [freeRetryLoopAux, hr]
  | succ rem ih =>
    intro aborts
    by_cases hr : f aborts = true
    · have := ih (aborts + 1)
      have harith : aborts + 1 + rem + 1 = aborts + (rem + 1) + 1 := by omega
      rw [harith] at this
      simpa [freeRetryLoopAux, hr] using this
    · simp [freeRetryLoopAux, hr]
      omega

/-- C9: teardown is bounded.  The signal phase sets the abort flag on
every worker and FreeThreads forwards the abort to every in-flight task,
ending with no workers left; the per-thread wait loop issues at most 11
abort-and-sleep retries (millisecond sleeps), and whenever it escalates
to `Kill()` it has first issued exactly 11 retries (more than 10) and
found the thread still running. -/
theorem C9_teardown_bounded (f : Nat → Bool) (threads : List PrivateThread)
    (s : cbThreadPool) :
    (∀ th ∈ freeThreadsSignalPhase threads, th.m_Abort = true) ∧
    (∀ th ∈ s.m_Threads, ∀ t, th.m_pTask = some t →
      t ∈ (FreeThreads s).abortedTasks) ∧
    (FreeThreads s).m_Threads = [] ∧
    (freeRetryLoop f).1 ≤ 11 ∧
    ((freeRetryLoop f).2 = true →
      (freeRetryLoop f).1 = 11 ∧ f 11 = true) := by
  refine ⟨?_, ?_, rfl, ?_, ?_⟩
  · intro th hth
    simp [freeThreadsSignalPhase] at hth
    obtain ⟨u, _, rfl⟩ := hth
    rfl
  · intro th hth t ht
    simp [FreeThreads]
    right
    exact ⟨th, hth, ht⟩
  · have := (freeRetryLoopAux_spec f 10 0).1
    simpa [freeRetryLoop] using this
  · intro hk
    have := (freeRetryLoopAux_spec f 10 0).2
    simp [freeRetryLoop] at hk ⊢
    simpa using this hk

/-- Witness for C9 with a thread that never stops running: the loop
issues exactly 11 retries and kills. -/
theorem C9_teardown_bounded_witness :
    (freeRetryLoop (fun _ => true)).2 = true ∧
    (freeRetryLoop (fun _ => true)).1 = 11 :=
  ⟨by decide,
   ((C9_teardown_bounded (fun _ => true) [] (mkPool 4 0 1)).2.2.2.2
      (by decide)).1⟩

/-- AddTask on a non-aborting pool appends one entry at the tail and
leaves the aborting flag clear. -/
theorem addTask_queue_of_not_aborting (s : cbThreadPool) (t : Nat) (ad : Bool)
    (h : s.m_Aborting = false) :
    (AddTask s t ad).2.m_TaskQueue = s.m_TaskQueue ++ [⟨some t, ad⟩] ∧
    (AddTask s t ad).2.m_Aborting = false := by
  cases hb : s.m_Batching <;> simp [AddTask, h, hb, RunThreads]

/-- Folding AddTask over a list of submissions appends the corresponding
entries in submission order. -/
theorem submitAll_queue (ts : List (Nat × Bool)) :
    ∀ s : cbThreadPool, s.m_Aborting = false →
      (submitAll s ts).m_TaskQueue =
        s.m_TaskQueue ++ ts.map (fun t => ⟨some t.1, t.2⟩) ∧
      (submitAll s ts).m_Aborting = false := by
  induction ts with
  | nil =>
    intro s h
    simp [submitAll, h]
  | cons t ts ih =>
    intro s h
    have h1 := addTask_queue_of_not_aborting s t.1 t.2 h
    have h2 := ih (AddTask s t.1 t.2).2 h1.2
    simp only [submitAll, List.foldl_cons] at h2 ⊢
    rw [h2.1, h1.1]
    refine ⟨by simp, h2.2⟩

/-- Draining a queue whose entries all hold non-null tasks yields those
tasks in queue order. -/
theorem drainAux_of_all_some (es : List cbTaskElement) :
    ∀ (s : cbThreadPool) (fuel : Nat), s.m_TaskQueue = es →
      (∀ e ∈ es, e.task.isSome) → es.length ≤ fuel →
      drainAux fuel s = es.filterMap (·.task) := by
  induction es with
  | nil =>
    intro s fuel hq _ _
    cases fuel with
    | zero => simp [drainAux]
    | succ f => simp [drainAux, GetNextElement, hq]
  | cons e rest ih =>
    intro s fuel hq hsome hlen
    cases fuel with
    | zero => simp at hlen
    | succ f =>
      obtain ⟨t, ht⟩ := Option.isSome_iff_exists.mp (hsome e (by simp))
      simp only [drainAux, GetNextElement, hq, ht, List.filterMap_cons]
      rw [ih { s with m_TaskQueue := rest } f rfl
        (fun x hx => hsome x (by simp [hx])) (by simpa using hlen)]

/-- Extracting the task ids from submission-built entries recovers the
submitted ids. -/
theorem filterMap_entry_task (ts : List (Nat × Bool)) :
    (ts.map fun t => (⟨some t.1, t.2⟩ : cbTaskElement)).filterMap (·.task) =
      ts.map (·.1) := by
  induction ts with
  | nil => rfl
  | cons a ts ih => simp [ih]

/-- C4: the queue is FIFO.  Submitting T1..Tn to a non-aborting pool
with an empty queue and then repeatedly dequeuing yields T1..Tn in
submission order; GetNextElement removes and returns the head entry;
and on an empty queue it yields a NULL task, on which one worker-loop
iteration reports `false`, i.e. the `if (!elem.task) break;` exit. -/
theorem C4_fifo (s : cbThreadPool) (ts : List (Nat × Bool))
    (h0 : s.m_Aborting = false) (h1 : s.m_TaskQueue = []) :
    drainAux ts.length (submitAll s ts) = ts.map (·.1) ∧
    (∀ (s2 : cbThreadPool) (e : cbTaskElement) (rest : List cbTaskElement),
      s2.m_TaskQueue = e :: rest →
      GetNextElement s2 = (e, { s2 with m_TaskQueue := rest })) ∧
    (∀ s2 : cbThreadPool, s2.m_TaskQueue = [] →
      (GetNextElement s2).1.task = none ∧ (workerIterate s2).1 = false) := by
  refine ⟨?_, ?_, ?_⟩
  · have hq := submitAll_queue ts s h0
    rw [drainAux_of_all_some (ts.map fun t => ⟨some t.1, t.2⟩) (submitAll s ts)
      ts.length (by rw [hq.1, h1]; simp)
      (by
        intro e he
        obtain ⟨a, _, rfl⟩ := List.mem_map.mp he
        rfl)
      (by simp)]
    exact filterMap_entry_task ts
  · intro s2 e rest hq
    simp [GetNextElement, hq]
  · intro s2 hq
    constructor <;> simp [workerIterate, GetNextElement, hq]

/-- Witness for C4 with three concrete submissions. -/
theorem C4_fifo_witness :
    ((mkPool 4 0 1).m_Aborting = false ∧ (mkPool 4 0 1).m_TaskQueue = []) ∧
    drainAux 3 (submitAll (mkPool 4 0 1) [(1, false), (2, true), (3, false)]) =
      [1, 2, 3] :=
  ⟨⟨by decide, by decide⟩,
   (C4_fifo (mkPool 4 0 1) [(1, false), (2, true), (3, false)]
      (by decide) (by decide)).1⟩

/-- Event counting distributes over append. -/
theorem countAllDone_append (a b : List PoolEvent) :
    countAllDone (a ++ b) = countAllDone a + countAllDone b := by
  simp [countAllDone]

/-- Event counting distributes over append. -/
theorem countTaskEnded_append (a b : List PoolEvent) :
    countTaskEnded (a ++ b) = countTaskEnded a + countTaskEnded b := by
  simp [countTaskEnded]

/-- Field effects of one completion notification: exactly one
task-ended event is appended, plus one all-done event exactly when the
queue is empty and the counter is zero; queue, counter and the audit
lists are untouched. -/
theorem onThreadTaskDone_fields (s : cbThreadPool) :
    (OnThreadTaskDone s).posted =
      s.posted ++ [PoolEvent.taskEnded s.m_ID] ++
        (if s.m_TaskQueue = [] ∧ s.m_Counter = 0
         then [PoolEvent.allDone s.m_ID] else []) ∧
    (OnThreadTaskDone s).m_TaskQueue = s.m_TaskQueue ∧
    (OnThreadTaskDone s).m_Counter = s.m_Counter ∧
    (OnThreadTaskDone s).m_ID = s.m_ID := by
  by_cases hq : s.m_TaskQueue = [] <;> by_cases hc : s.m_Counter = 0 <;>
    simp [OnThreadTaskDone, hq, hc]

/-- A worker facing an empty queue changes nothing: its first dequeue
returns a NULL task and the loop exits. -/
theorem workerRunAux_empty (fuel : Nat) (s : cbThreadPool)
    (h : s.m_TaskQueue = []) : workerRunAux fuel s = s := by
  cases fuel with
  | zero => rfl
  | succ f => simp [workerRunAux, workerIterate, GetNextElement, h]

/-- Field effects of one task-executing worker iteration. -/
theorem workerIterate_fields (s : cbThreadPool) (e : cbTaskElement)
    (rest : List cbTaskElement) (t : Nat)
    (hq : s.m_TaskQueue = e :: rest) (ht : e.task = some t) :
    (workerIterate s).1 = true ∧
    (workerIterate s).2.m_TaskQueue = rest ∧
    (workerIterate s).2.m_Counter = s.m_Counter ∧
    (workerIterate s).2.posted =
      s.posted ++ [PoolEvent.taskEnded s.m_ID] ++
        (if rest = [] ∧ s.m_Counter = 0
         then [PoolEvent.allDone s.m_ID] else []) := by
  cases had : e.autoDelete <;>
    by_cases hrest : rest = [] <;> by_cases hc : s.m_Counter = 0 <;>
      simp [workerIterate, GetNextElement, OnThreadTaskDone, hq, ht, had,
        hrest, hc]

/-- A lone worker that drains a queue of `n ≥ 1` non-null tasks posts
exactly one all-done event over the whole run. -/
theorem workerRunAux_allDone (es : List cbTaskElement) :
    ∀ (s : cbThreadPool) (fuel : Nat), s.m_TaskQueue = es →
      s.m_Counter = 0 → (∀ e ∈ es, e.task.isSome) →
      es.length + 1 ≤ fuel →
      countAllDone (workerRunAux fuel s).posted =
        countAllDone s.posted + (if es = [] then 0 else 1) := by
  induction es with
  | nil =>
    intro s fuel hq _ _ _
    simp [workerRunAux_empty fuel s hq]
  | cons e rest ih =>
    intro s fuel hq hc hsome hfuel
    obtain ⟨t, ht⟩ := Option.isSome_iff_exists.mp (hsome e (by simp))
    cases fuel with
    | zero => simp at hfuel
    | succ f =>
      obtain ⟨h1, h2, h3, h4⟩ := workerIterate_fields s e rest t hq ht
      rcases hws : workerIterate s with ⟨b, s6⟩
      rw [hws] at h1 h2 h3 h4
      simp only at h1 h2 h3 h4
      subst h1
      have hrun : workerRunAux (f + 1) s = workerRunAux f s6 := by
        simp [workerRunAux, hws]
      rw [hrun]
      by_cases hrest : rest = []
      · rw [workerRunAux_empty f s6 (h2.trans hrest)]
        rw [h4]
        simp [hrest, hc, countAllDone_append, countAllDone]
      · have := ih s6 f h2 (h3.trans hc)
          (fun x hx => hsome x (by simp [hx]))
          (by simpa using Nat.le_of_succ_le_succ hfuel)
        rw [this, h4]
        simp [hrest, countAllDone_append, countAllDone]

/-- C2 (amended): the completion handler always posts exactly one
task-ended event and posts the all-done event — setting the done flag —
exactly when the queue is empty and the busy counter is zero; a run in
which a single worker executes all N ≥ 1 submitted tasks posts exactly
one all-done event.  (As the counterexample shows, two workers finishing
concurrently can both observe the empty queue and zero counter, so a
multi-worker run can post more than one all-done event.) -/
theorem C2_completion_notifications (s s2 : cbThreadPool)
    (h0 : s.m_Counter = 0) (h1 : s.m_TaskQueue ≠ [])
    (h2 : ∀ e ∈ s.m_TaskQueue, e.task.isSome) :
    countTaskEnded (OnThreadTaskDone s2).posted =
      countTaskEnded s2.posted + 1 ∧
    countAllDone (OnThreadTaskDone s2).posted =
      countAllDone s2.posted +
        (if s2.m_TaskQueue = [] ∧ s2.m_Counter = 0 then 1 else 0) ∧
    (s2.m_TaskQueue = [] ∧ s2.m_Counter = 0 →
      (OnThreadTaskDone s2).m_Done = true) ∧
    (¬(s2.m_TaskQueue = [] ∧ s2.m_Counter = 0) →
      (OnThreadTaskDone s2).m_Done = s2.m_Done) ∧
    countAllDone (workerRun s).posted = countAllDone s.posted + 1 := by
  refine ⟨?_, ?_, ?_, ?_, ?_⟩
  · rw [(onThreadTaskDone_fields s2).1]
    by_cases hcond : s2.m_TaskQueue = [] ∧ s2.m_Counter = 0 <;>
      simp [hcond, countTaskEnded_append, countTaskEnded]
  · rw [(onThreadTaskDone_fields s2).1]
    by_cases hcond : s2.m_TaskQueue = [] ∧ s2.m_Counter = 0 <;>
      simp [hcond, countAllDone_append, countAllDone]
  · intro hcond
    simp [OnThreadTaskDone, hcond.1, hcond.2]
  · intro hcond
    by_cases hq : s2.m_TaskQueue = []
    · have hcne : ¬s2.m_Counter = 0 := fun hcc => hcond ⟨hq, hcc⟩
      simp [OnThreadTaskDone, hq, hcne]
    · simp [OnThreadTaskDone, hq]
  · have := workerRunAux_allDone s.m_TaskQueue s (s.m_TaskQueue.length + 1)
      rfl h0 h2 (Nat.le_refl _)
    rw [workerRun, this]
    simp [h1]

/-- Witness for C2 (amended): one task through a one-worker pool. -/
theorem C2_completion_notifications_witness :
    countAllDone
        (workerRun (AddTask (mkPool 4 0 1) 5 false).2).posted =
      countAllDone ((AddTask (mkPool 4 0 1) 5 false).2).posted + 1 :=
  (C2_completion_notifications (AddTask (mkPool 4 0 1) 5 false).2
    (mkPool 4 0 1) (by decide) (by decide) (by decide)).2.2.2.2

/-- Machine state at the start of the racing two-worker run: a pool of
two workers with two submitted tasks, neither worker started on its
iteration yet. -/
def raceInit : MachineState :=
  { pool := (AddTask (AddTask (mkPool 4 7 2) 1 false).2 2 false).2
    wA := initLocal
    wB := initLocal }

/-- A schedule in which workers A and B each dequeue and execute one
task, both decrement the busy counter, and only then run their
completion handlers one after the other. -/
def raceSchedule : List (Bool × WAct) :=
  [(false, .clearTask), (false, .getNext), (false, .takeTask),
   (true, .clearTask), (true, .getNext), (true, .takeTask),
   (false, .execute), (true, .execute),
   (false, .putTask), (true, .putTask),
   (false, .deleteIfAuto), (true, .deleteIfAuto),
   (false, .notify), (true, .notify)]

/-- C2 fails as stated: `raceSchedule` is a legal interleaving of two
workers each performing one full iteration of `PrivateThread::Entry`,
the run starts with no all-done event posted and both tasks executed
exactly once, yet it posts two all-done events, because both workers
observe the empty queue and zero busy counter in their completion
handlers. -/
theorem C2_counterexample :
    isInterleaving (iterScript.map ((false, ·))) (iterScript.map ((true, ·)))
      raceSchedule = true ∧
    countAllDone raceInit.pool.posted = 0 ∧
    (runSchedule raceInit raceSchedule).pool.executed = [1, 2] ∧
    countAllDone (runSchedule raceInit raceSchedule).pool.posted = 2 := by
  decide

/-- Machine state for a single worker holding one submitted task: a
fresh one-worker pool right after `AddTask(t, ad)`, the worker not yet
started on its iteration. -/
def c8Init (t : Nat) (ad : Bool) : MachineState :=
  { pool := (AddTask (mkPool 4 0 1) t ad).2
    wA := initLocal
    wB := initLocal }

/-- C8: the in-flight reference is non-null exactly while the worker is
counted busy.  At every state between the atomic actions of one full
iteration of `PrivateThread::Entry`, the worker's `m_pTask` is set iff
the busy counter is 1, and clear iff it is 0.  The reference is set
together with the increment by the single atomic `takeTask` critical
section, so the state from which `Execute()` runs (after the first three
actions) has `m_pTask = some t` and counter 1; it is cleared together
with the decrement by the single atomic `putTask` critical section,
after which (five actions in) `m_pTask = none` and the counter is 0. -/
theorem C8_inflight_iff_busy (t : Nat) (ad : Bool) :
    (∀ m ∈ List.scanl step (c8Init t ad) (iterScript.map ((false, ·))),
      (m.wA.m_pTask.isSome ↔ m.pool.m_Counter = 1) ∧
      (m.wA.m_pTask = none ↔ m.pool.m_Counter = 0)) ∧
    (runSchedule (c8Init t ad)
        ((iterScript.take 3).map ((false, ·)))).wA.m_pTask = some t ∧
    (runSchedule (c8Init t ad)
        ((iterScript.take 3).map ((false, ·)))).pool.m_Counter = 1 ∧
    (runSchedule (c8Init t ad)
        ((iterScript.take 5).map ((false, ·)))).wA.m_pTask = none ∧
    (runSchedule (c8Init t ad)
        ((iterScript.take 5).map ((false, ·)))).pool.m_Counter = 0 := by
  constructor
  · intro m hm
    cases ad <;>
      simp only [c8Init, AddTask, mkPool, SetConcurrentThreads, AllocThreads,
        FreeThreads, RunThreads, ClearTaskQueue, iterScript, List.map,
        List.scanl, step, stepLocal, GetNextElement, OnThreadTaskDone,
        initLocal, freshThread, List.mem_cons, List.not_mem_nil, or_false,
        reduceIte] at hm <;>
      rcases hm with rfl | rfl | rfl | rfl | rfl | rfl | rfl | rfl <;>
      simp
  · cases ad <;>
      simp [c8Init, AddTask, mkPool, SetConcurrentThreads, AllocThreads,
        FreeThreads, RunThreads, iterScript, runSchedule, step, stepLocal,
        GetNextElement, OnThreadTaskDone, initLocal, freshThread]

/-- Witness for C8 at task id 5, applied at the initial scan state. -/
theorem C8_inflight_iff_busy_witness :
    ((c8Init 5 false).wA.m_pTask.isSome ↔ (c8Init 5 false).pool.m_Counter = 1) ∧
    (runSchedule (c8Init 5 false)
        ((iterScript.take 3).map ((false, ·)))).wA.m_pTask = some 5 :=
  ⟨((C8_inflight_iff_busy 5 false).1 (c8Init 5 false) (by decide)).1,
   (C8_inflight_iff_busy 5 false).2.1⟩

end CbThreadPool
